import Mathlib

/-!
# Verification of the concert-finder event pipeline (src/app.py)

Shallow embedding of the non-UI logic of the concert-finder application:
artist extraction, the two similarity-API lookups, the event search with
deduplication and large-venue filtering, popularity ranking, and price
formatting. Python strings are modelled as Lean strings, Python dict/JSON
values reached by the code as small inductive types, and the two HTTP
collaborators as explicit response inputs; fallible Python code is
modelled with Except.
-/

set_option maxRecDepth 10000
set_option linter.unusedVariables false

namespace ConcertFinder

/-- A Python scalar value as it can appear in the JSON fields the code
inspects (capacity, listener counts): JSON null, an integer, or a string. -/
inductive PyVal where
  | vnone
  | vint (n : Int)
  | vstr (s : String)
deriving DecidableEq, Repr

/-- Python truthiness of an optional scalar: a missing value (dict.get
returning None) and None itself are falsy, an integer is truthy iff
non-zero, a string is truthy iff non-empty. -/
def pyTruthy : Option PyVal → Bool
  | Option.none => false
  | some PyVal.vnone => false
  | some (PyVal.vint n) => decide (n ≠ 0)
  | some (PyVal.vstr s) => decide (s ≠ "")

/-- Python whitespace characters recognised by str.strip(). -/
def pyWhitespace (c : Char) : Bool :=
  c = ' ' || c = '\t' || c = '\n' || c = '\r' || c = Char.ofNat 11 || c = Char.ofNat 12

/-- Python str.strip(): drop leading and trailing whitespace. -/
def pyStrip (s : String) : String :=
  String.mk (((s.toList.dropWhile pyWhitespace).reverse.dropWhile pyWhitespace).reverse)

/-- Digit value of a character, if it is an ASCII digit. -/
def digitVal (c : Char) : Option Nat :=
  if '0' ≤ c ∧ c ≤ '9' then some (c.toNat - '0'.toNat) else none

/-- Accumulate decimal digits; fails on a non-digit. -/
def digitsAcc : List Char → Nat → Option Nat
  | [], acc => some acc
  | c :: rest, acc =>
    match digitVal c with
    | some d => digitsAcc rest (acc * 10 + d)
    | Option.none => Option.none

/-- A non-empty all-digit character list as a natural number. -/
def digitsToNat : List Char → Option Nat
  | [] => Option.none
  | c :: rest => digitsAcc (c :: rest) 0

/-- Python int(s) on a string: optional surrounding whitespace, an optional
sign, then one or more decimal digits; anything else raises ValueError,
modelled as none. -/
def pyParseInt (s : String) : Option Int :=
  let l := ((s.toList.dropWhile pyWhitespace).reverse.dropWhile pyWhitespace).reverse
  match l with
  | '-' :: rest => (digitsToNat rest).map (fun n => -(n : Int))
  | '+' :: rest => (digitsToNat rest).map (fun n => (n : Int))
  | _ => (digitsToNat l).map (fun n => (n : Int))

/-- Python int(v) on a scalar: an integer is returned as is, a string is
parsed, None raises TypeError (none). -/
def pyIntOfVal : PyVal → Option Int
  | PyVal.vnone => Option.none
  | PyVal.vint n => some n
  | PyVal.vstr s => pyParseInt s

/-- Substring test, Python `sub in l` on character lists. -/
def listContainsSub (sub : List Char) : List Char → Bool
  | [] => sub.isPrefixOf []
  | c :: rest => sub.isPrefixOf (c :: rest) || listContainsSub sub rest

/-- Prefix of l before the first occurrence of sub, Python
`l.split(sub)[0]` for a non-empty sub that occurs in l. -/
def listTakeBefore (sub : List Char) : List Char → List Char
  | [] => []
  | c :: rest =>
    if sub.isPrefixOf (c :: rest) then [] else c :: listTakeBefore sub rest

/-- Python `sub in s` on strings. -/
def strContains (s sub : String) : Bool := listContainsSub sub.toList s.toList

/-- Python `s.split(sub)[0]`: everything before the first occurrence of sub. -/
def strSplitFirst (s sub : String) : String :=
  String.mk (listTakeBefore sub.toList s.toList)

/-- An attraction record as the code reads it: only its name field. -/
structure Attraction where
  name : Option String
deriving DecidableEq, Repr

/-- A venue record, reduced to the three fields the capacity check reads:
generalInfo.capacity, upcomingEvents._total and boxOfficeInfo.capacity,
each possibly absent (the .get chain collapsing a missing parent dict to a
missing field). -/
structure Venue where
  generalInfoCapacity : Option PyVal
  upcomingEventsTotal : Option PyVal
  boxOfficeInfoCapacity : Option PyVal
deriving DecidableEq, Repr

/-- A price-range entry: min and max fields, possibly absent. -/
structure PriceRange where
  min : Option Int
  max : Option Int
deriving DecidableEq, Repr

/-- A raw Ticketmaster event, reduced to the fields the pipeline reads:
id, name, _embedded.attractions, _embedded.venues, dates.start.dateTime
(the .get chain collapsed), priceRanges, and the _popularity annotation
attached during ranking (absent before ranking). Fields the claims never
touch (images, url, localDate and localTime) are omitted. -/
structure RawEvent where
  id : Option String
  name : Option String
  attractions : List Attraction
  venues : List Venue
  dateTime : Option String
  priceRanges : List PriceRange
  popularity : Option Int
deriving DecidableEq, Repr

/-- The fixed suffix list of extract_artist_from_event (src/app.py line 83). -/
def tourSuffixes : List String :=
  [" Tour", " Live", " Concert", " Show", " Presents", " World Tour"]

/-- extract_artist_from_event (src/app.py lines 73-86): first attraction
name when attractions exist; otherwise the event name run through the
suffix-stripping loop (each suffix in list order, truncating at the first
occurrence when present) and stripped of surrounding whitespace. -/
def extract_artist_from_event (e : RawEvent) : String :=
  match e.attractions with
  | a :: _ => a.name.getD ""
  | [] =>
    pyStrip (tourSuffixes.foldl
      (fun n suf => if strContains n suf then strSplitFirst n suf else n)
      (e.name.getD ""))

/-- A Python exception escaping one of the API helpers: an exception from
the HTTP library (requests.RequestException and kin), a response.json()
parse failure, or a KeyError from a missing dict key. -/
inductive PyError where
  | requestError
  | jsonError
  | keyError
deriving DecidableEq, Repr

/-- Outcome of the similarity-API HTTP call, supplied as input since the
server is external: netFail models requests.get raising; resp carries the
status code and, when response.json() succeeds, the similarartists.artist
array where each entry is its name field if present (the .get chain
collapses a missing similarartists or artist key to the empty array). -/
inductive SimNet where
  | netFail
  | resp (status : Nat) (body : Option (List (Option String)))
deriving DecidableEq, Repr

/-- The list comprehension over artist entries, a["name"] for each: a
missing name key raises KeyError at the first offending entry. -/
def collectNames : List (Option String) → Except PyError (List String)
  | [] => Except.ok []
  | some n :: rest => (collectNames rest).map (fun l => n :: l)
  | Option.none :: _ => Except.error PyError.keyError

/-- get_similar_artists_lastfm (src/app.py lines 18-40). The artist name
and limit are only request parameters; the response is an input. There is
no try/except in the source, so a raising requests.get or response.json()
propagates, modelled as Except.error. -/
def get_similar_artists_lastfm (apiKeyPresent : Bool) (artist_name : String)
    (limit : Nat) (net : SimNet) : Except PyError (List String) :=
  if apiKeyPresent then
    match net with
    | SimNet.netFail => Except.error PyError.requestError
    | SimNet.resp status body =>
      if status = 200 then
        match body with
        | Option.none => Except.error PyError.jsonError
        | some entries => collectNames entries
      else Except.ok []
  else Except.ok []

/-- Number of artist entries carried by a similarity-API response. -/
def simNetEntryCount : SimNet → Nat
  | SimNet.netFail => 0
  | SimNet.resp _ Option.none => 0
  | SimNet.resp _ (some entries) => entries.length

/-- Outcome of the artist-info HTTP call: netFail models requests.get
raising; resp carries the status and, when response.json() succeeds, the
artist.stats.listeners value (the .get chain defaults a missing field to
the string "0", so a parsed body always yields some value). -/
inductive PopNet where
  | netFail
  | resp (status : Nat) (body : Option PyVal)
deriving DecidableEq, Repr

/-- get_artist_popularity (src/app.py lines 44-70). First component:
whether the body issued the outbound HTTP request. No guard on the artist
name exists in the source; only int(listeners) is wrapped in try/except.
The st.cache_data decorator only memoises the pure result and is not
modelled. -/
def get_artist_popularity (apiKeyPresent : Bool) (artist_name : String)
    (net : PopNet) : Bool × Except PyError Int :=
  if apiKeyPresent then
    (true,
      match net with
      | PopNet.netFail => Except.error PyError.requestError
      | PopNet.resp status body =>
        if status = 200 then
          match body with
          | Option.none => Except.error PyError.jsonError
          | some listeners =>
            Except.ok (match pyIntOfVal listeners with
              | some n => n
              | Option.none => 0)
        else Except.ok 0)
  else (false, Except.ok 0)

/-- The per-event popularity annotation of the ranking step (src/app.py
lines 365-366): the popularity lookup runs only when the extracted artist
name is a non-empty (truthy) string, otherwise 0 with no call. -/
def eventPopularity (apiKeyPresent : Bool) (netOf : String → PopNet)
    (e : RawEvent) : Bool × Except PyError Int :=
  let artist := extract_artist_from_event e
  if artist ≠ "" then get_artist_popularity apiKeyPresent artist (netOf artist)
  else (false, Except.ok 0)

/-- VENUE_SIZE_THRESHOLD (src/app.py line 14). -/
def VENUE_SIZE_THRESHOLD : Int := 10000

/-- Capacity resolution for one venue (src/app.py lines 140-148):
generalInfo.capacity if truthy; the elif on upcomingEvents._total does
nothing in the source (dead branch); then boxOfficeInfo.capacity if the
variable is still falsy and that field is truthy. -/
def resolveCapacity (v : Venue) : Option PyVal :=
  let cap : Option PyVal :=
    if pyTruthy v.generalInfoCapacity then v.generalInfoCapacity
    else Option.none
  if !(pyTruthy cap) && pyTruthy v.boxOfficeInfoCapacity then
    v.boxOfficeInfoCapacity
  else cap

/-- The capacity the filter resolves for an event: the first venue in the
venue list, or nothing when the venue list is empty (src/app.py lines
136-138). -/
def resolveEventCapacity (e : RawEvent) : Option PyVal :=
  match e.venues with
  | [] => Option.none
  | v :: _ => resolveCapacity v

/-- The large-venue drop decision (src/app.py lines 134-155): only when
excluding large venues, only from the first venue, and only when the
resolved capacity is truthy and parses as an integer above the threshold;
a ValueError/TypeError from int() is swallowed and the event kept. -/
def eventDropped (excl : Bool) (e : RawEvent) : Bool :=
  if excl then
    let cap := resolveEventCapacity e
    if pyTruthy cap then
      match cap with
      | some cv =>
        match pyIntOfVal cv with
        | some n => decide (n > VENUE_SIZE_THRESHOLD)
        | Option.none => false
      | Option.none => false
    else false
  else false

/-- An event passes the large-venue filter. -/
def keepEvent (excl : Bool) (e : RawEvent) : Bool := !eventDropped excl e

/-- The per-event loop of search_ticketmaster_events (src/app.py lines
129-158) over the concatenated stream of fetched events: skip an event
whose id is already seen; drop a filtered-out event without recording its
id; otherwise record the id and append the event. -/
def searchLoop (excl : Bool) : List RawEvent → List (Option String) → List RawEvent
  | [], _ => []
  | e :: rest, seen =>
    if e.id ∈ seen then searchLoop excl rest seen
    else if keepEvent excl e then e :: searchLoop excl rest (e.id :: seen)
    else searchLoop excl rest seen

/-- First-occurrence deduplication by event id against a seen set. -/
def dedupFirst : List RawEvent → List (Option String) → List RawEvent
  | [], _ => []
  | e :: rest, seen =>
    if e.id ∈ seen then dedupFirst rest seen
    else e :: dedupFirst rest (e.id :: seen)

/-- The events the term loop iterates over, in order: one entry per search
term paired with its query outcome (none models a requests exception or a
non-200 status, either of which contributes nothing); a blank or
whitespace-only term is skipped before any request (src/app.py lines
102-127). -/
def gatherStream : List (String × Option (List RawEvent)) → List RawEvent
  | [] => []
  | (t, r) :: rest =>
    (if pyStrip t = "" then [] else r.getD []) ++ gatherStream rest

/-- Stable insertion parameterised by the boolean relation deciding that
an already-placed earlier element y stays in front of the incoming later
element x. -/
def pyInsert (stays : α → α → Bool) (x : α) : List α → List α
  | [] => [x]
  | y :: ys => if stays y x then y :: pyInsert stays x ys else x :: y :: ys

/-- Stable sort by repeated insertion, processing the original order so
that an element placed among equals ends up after no earlier equal
element. With stays y x set to a strict comparison this reproduces the
output of the stable Python list.sort. -/
def pySort (stays : α → α → Bool) : List α → List α
  | [] => []
  | x :: xs => pyInsert stays x (pySort stays xs)

/-- Lexicographic strict comparison on character lists, Python s < t on
strings (code-point order). -/
def listLt : List Char → List Char → Bool
  | _, [] => false
  | [], _ :: _ => true
  | a :: as, b :: bs => if a < b then true else if a = b then listLt as bs else false

/-- Python string strict less-than. -/
def strLtB (a b : String) : Bool := listLt a.toList b.toList

/-- The key of the date sort (src/app.py line 164):
dates.start.dateTime defaulted to the empty string. -/
def dateKey (e : RawEvent) : String := e.dateTime.getD ""

/-- Stable ascending sort by the date key, Python list.sort(key=...). -/
def sortByDate (l : List RawEvent) : List RawEvent :=
  pySort (fun y x => strLtB (dateKey y) (dateKey x)) l

/-- search_ticketmaster_events (src/app.py lines 89-166), with the
per-term HTTP outcomes supplied as input: empty on a missing API key
(after the fatal configuration error message), otherwise the dedup/filter
loop over the fetched stream followed by the ascending date sort. -/
def search_ticketmaster_events (apiKeyPresent : Bool)
    (termResponses : List (String × Option (List RawEvent)))
    (exclude_large_venues : Bool) : List RawEvent :=
  if apiKeyPresent then
    sortByDate (searchLoop exclude_large_venues (gatherStream termResponses) [])
  else []

/-- The concatenated fetched stream restricted to events that pass the
large-venue filter. -/
def admittedStream (termResponses : List (String × Option (List RawEvent)))
    (excl : Bool) : List RawEvent :=
  (gatherStream termResponses).filter (keepEvent excl)

/-- The _popularity key read back by the sort, defaulted to 0
(src/app.py line 367). -/
def popKey (e : RawEvent) : Int := e.popularity.getD 0

/-- The annotation pass of the ranking step (src/app.py lines 364-366):
every event receives a _popularity value. The popularity source is
abstracted as a function of the event. -/
def annotateByPopularity (popOf : RawEvent → Int) (events : List RawEvent) :
    List RawEvent :=
  events.map (fun e => { e with popularity := some (popOf e) })

/-- Stable descending sort by an integer key, Python
list.sort(key=..., reverse=True). -/
def sortDescBy (k : α → Int) (l : List α) : List α :=
  pySort (fun y x => decide (k x < k y)) l

/-- The popularity ranking step (src/app.py lines 362-367): annotate every
event, then sort descending by the annotation, stably. -/
def rankByPopularity (popOf : RawEvent → Int) (events : List RawEvent) :
    List RawEvent :=
  sortDescBy popKey (annotateByPopularity popOf events)

/-- The price-string computation of format_event (src/app.py lines
199-207): first price-range entry, min and max defaulted to 0, rendered
when truthy. Prices are modelled as integers, on which the Python :.0f
format prints the plain integer. -/
def format_event_price (e : RawEvent) : String :=
  match e.priceRanges with
  | [] => ""
  | pr :: _ =>
    let min_price := pr.min.getD 0
    let max_price := pr.max.getD 0
    if min_price ≠ 0 ∧ max_price ≠ 0 then
      "$" ++ toString min_price ++ " - $" ++ toString max_price
    else if min_price ≠ 0 then
      "From $" ++ toString min_price
    else ""

/-! ## Sorting lemmas -/

theorem pyInsert_perm (stays : α → α → Bool) (x : α) (l : List α) :
    List.Perm (pyInsert stays x l) (x :: l) := by
  induction l with
  | nil => simp [pyInsert]
  | cons y ys ih =>
    by_cases h : stays y x
    · simp only [pyInsert, if_pos h]
      exact (ih.cons y).trans (List.Perm.swap x y ys)
    · simp [pyInsert, h]

theorem pySort_perm (stays : α → α → Bool) (l : List α) :
    List.Perm (pySort stays l) l := by
  induction l with
  | nil => simp [pySort]
  | cons x xs ih =>
    exact (pyInsert_perm stays x (pySort stays xs)).trans (ih.cons x)

theorem mem_pySort {stays : α → α → Bool} {l : List α} {a : α} :
    a ∈ pySort stays l ↔ a ∈ l :=
  (pySort_perm stays l).mem_iff

theorem pyInsert_pairwise_desc (k : α → Int) (x : α) {l : List α}
    (h : List.Pairwise (fun a b => k b ≤ k a) l) :
    List.Pairwise (fun a b => k b ≤ k a)
      (pyInsert (fun y x => decide (k x < k y)) x l) := by
  induction l with
  | nil => simp [pyInsert]
  | cons y ys ih =>
    rw [List.pairwise_cons] at h
    by_cases hc : k x < k y
    · simp only [pyInsert, decide_eq_true_eq, if_pos hc, List.pairwise_cons]
      refine ⟨?_, ih h.2⟩
      intro b hb
      rcases List.mem_cons.mp ((pyInsert_perm _ x ys).mem_iff.mp hb) with rfl | hb
      · exact le_of_lt hc
      · exact h.1 b hb
    · simp only [pyInsert, decide_eq_true_eq, if_neg hc, List.pairwise_cons]
      have hyx : k y ≤ k x := le_of_not_lt hc
      refine ⟨?_, h.1, h.2⟩
      intro b hb
      rcases List.mem_cons.mp hb with rfl | hb
      · exact hyx
      · exact le_trans (h.1 b hb) hyx

theorem sortDescBy_pairwise (k : α → Int) (l : List α) :
    List.Pairwise (fun a b => k b ≤ k a) (sortDescBy k l) := by
  induction l with
  | nil => simp [sortDescBy, pySort]
  | cons x xs ih =>
    simp only [sortDescBy, pySort] at ih ⊢
    exact pyInsert_pairwise_desc k x ih

theorem pyInsert_filter_desc (k : α → Int) (c : Int) (x : α) {l : List α}
    (h : List.Pairwise (fun a b => k b ≤ k a) l) :
    (pyInsert (fun y x => decide (k x < k y)) x l).filter
        (fun a => decide (k a = c)) =
      if k x = c then x :: l.filter (fun a => decide (k a = c))
      else l.filter (fun a => decide (k a = c)) := by
  induction l with
  | nil =>
    by_cases hxc : k x = c <;> simp [pyInsert, List.filter, hxc]
  | cons y ys ih =>
    rw [List.pairwise_cons] at h
    by_cases hc : k x < k y
    · simp only [pyInsert, decide_eq_true_eq, if_pos hc]
      by_cases hxc : k x = c
      · have hyc : ¬(k y = c) := by omega
        simp [List.filter_cons, hyc, hxc, ih h.2]
      · simp [List.filter_cons, hxc, ih h.2]
    · simp only [pyInsert, decide_eq_true_eq, if_neg hc]
      by_cases hxc : k x = c <;> simp [List.filter_cons, hxc]

theorem sortDescBy_filter (k : α → Int) (c : Int) (l : List α) :
    (sortDescBy k l).filter (fun a => decide (k a = c)) =
      l.filter (fun a => decide (k a = c)) := by
  induction l with
  | nil => simp [sortDescBy, pySort]
  | cons x xs ih =>
    simp only [sortDescBy, pySort] at ih ⊢
    have hp : List.Pairwise (fun a b => k b ≤ k a)
        (pySort (fun y x => decide (k x < k y)) xs) := by
      simpa [sortDescBy, pySort] using sortDescBy_pairwise k xs
    rw [pyInsert_filter_desc k c x hp]
    by_cases hxc : k x = c <;> simp [List.filter_cons, hxc, ih]

/-! ## Deduplication-loop lemmas -/

theorem mem_of_mem_dedupFirst :
    ∀ {l : List RawEvent} {seen : List (Option String)} {e : RawEvent},
      e ∈ dedupFirst l seen → e ∈ l := by
  intro l
  induction l with
  | nil => intro seen e he; simp [dedupFirst] at he
  | cons x rest ih =>
    intro seen e he
    by_cases hx : x.id ∈ seen
    · simp only [dedupFirst, if_pos hx] at he
      exact List.mem_cons_of_mem x (ih he)
    · simp only [dedupFirst, if_neg hx, List.mem_cons] at he
      rcases he with rfl | he
      · exact List.mem_cons_self _ _
      · exact List.mem_cons_of_mem _ (ih he)

theorem dedupFirst_spec :
    ∀ (l : List RawEvent) (seen : List (Option String)) (e : RawEvent),
      e ∈ dedupFirst l seen →
        e.id ∉ seen ∧ l.find? (fun x => decide (x.id = e.id)) = some e := by
  intro l
  induction l with
  | nil => intro seen e he; simp [dedupFirst] at he
  | cons x rest ih =>
    intro seen e he
    by_cases hx : x.id ∈ seen
    · simp only [dedupFirst, if_pos hx] at he
      obtain ⟨h1, h2⟩ := ih seen e he
      have hne : ¬(x.id = e.id) := fun hh => h1 (hh ▸ hx)
      exact ⟨h1, by rw [List.find?_cons_of_neg _ (by simpa using hne)]; exact h2⟩
    · simp only [dedupFirst, if_neg hx, List.mem_cons] at he
      rcases he with rfl | he
      · exact ⟨hx, List.find?_cons_of_pos _ (by simp)⟩
      · obtain ⟨h1, h2⟩ := ih (x.id :: seen) e he
        have hne : ¬(x.id = e.id) := by
          intro hh
          exact h1 (by simp [hh])
        refine ⟨fun hs => h1 (List.mem_cons_of_mem _ hs), ?_⟩
        rw [List.find?_cons_of_neg _ (by simpa using hne)]
        exact h2

theorem dedupFirst_ids_nodup :
    ∀ (l : List RawEvent) (seen : List (Option String)),
      ((dedupFirst l seen).map RawEvent.id).Nodup := by
  intro l
  induction l with
  | nil => intro seen; simp [dedupFirst]
  | cons x rest ih =>
    intro seen
    by_cases hx : x.id ∈ seen
    · simp only [dedupFirst, if_pos hx]
      exact ih seen
    · simp only [dedupFirst, if_neg hx, List.map_cons, List.nodup_cons]
      refine ⟨?_, ih (x.id :: seen)⟩
      intro hmem
      obtain ⟨e, he, hid⟩ := List.mem_map.mp hmem
      exact (dedupFirst_spec rest (x.id :: seen) e he).1 (by simp [hid])

theorem mem_dedupFirst_append_last :
    ∀ (l : List RawEvent) (seen : List (Option String)) (e : RawEvent),
      (∀ x ∈ l, x.id ≠ e.id) → e.id ∉ seen →
        e ∈ dedupFirst (l ++ [e]) seen := by
  intro l
  induction l with
  | nil => intro seen e _ hs; simp [dedupFirst, hs]
  | cons x rest ih =>
    intro seen e hl hs
    by_cases hx : x.id ∈ seen
    · simp only [List.cons_append, dedupFirst, if_pos hx]
      exact ih seen e (fun y hy => hl y (List.mem_cons_of_mem _ hy)) hs
    · simp only [List.cons_append, dedupFirst, if_neg hx, List.mem_cons]
      right
      refine ih (x.id :: seen) e (fun y hy => hl y (List.mem_cons_of_mem _ hy)) ?_
      intro hmem
      rcases List.mem_cons.mp hmem with hh | hh
      · exact hl x (List.mem_cons_self x rest) hh.symm
      · exact hs hh

theorem searchLoop_eq_dedup (excl : Bool) :
    ∀ (l : List RawEvent) (seen : List (Option String)),
      searchLoop excl l seen = dedupFirst (l.filter (keepEvent excl)) seen := by
  intro l
  induction l with
  | nil => intro seen; simp [searchLoop, dedupFirst]
  | cons e rest ih =>
    intro seen
    by_cases hk : keepEvent excl e
    · by_cases hs : e.id ∈ seen <;>
        simp [searchLoop, hs, hk, List.filter_cons, dedupFirst, ih]
    · have hk' : keepEvent excl e = false := by simpa using hk
      by_cases hs : e.id ∈ seen <;>
        simp [searchLoop, hs, hk', List.filter_cons, ih]

/-! ## Concrete events used by the claim theorems -/

/-- An event with no attractions and a given raw name. -/
def eventNamed (nm : String) : RawEvent :=
  { id := Option.none, name := some nm, attractions := [], venues := [],
    dateTime := Option.none, priceRanges := [], popularity := Option.none }

/-- A venue declaring only generalInfo.capacity. -/
def venueCap (n : Int) : Venue :=
  { generalInfoCapacity := some (PyVal.vint n),
    upcomingEventsTotal := Option.none,
    boxOfficeInfoCapacity := Option.none }

/-- A venue with no capacity data anywhere. -/
def venueNoCap : Venue :=
  { generalInfoCapacity := Option.none,
    upcomingEventsTotal := Option.none,
    boxOfficeInfoCapacity := Option.none }

/-- A constant network outcome, failing every popularity request. -/
def constNetFail : String → PopNet := fun _ => PopNet.netFail

/-! ## C1: suffix stripping in extract_artist_from_event -/

/-- C1 counterexample: on an event with no attractions named
"Radiohead World Tour", extract_artist_from_event does not return
"Radiohead" — the suffix " Tour" is found first inside " World Tour" and
truncation happens there. -/
theorem C1_counterexample :
    extract_artist_from_event (eventNamed "Radiohead World Tour") ≠ "Radiohead" := by
  decide

/-- C1 (amended): with no attractions, the name "Radiohead World Tour"
yields "Radiohead World" (the suffix " Tour" matches first and truncation
happens at its first occurrence, inside " World Tour"); the name
"Radiohead" is returned unchanged; the loop does not stop at the first
matching suffix, so "A Live Tour" is stripped twice down to "A"; and a
name containing none of the fixed suffixes is returned with only
surrounding whitespace stripped. -/
theorem C1_amended_extraction :
    extract_artist_from_event (eventNamed "Radiohead World Tour") = "Radiohead World" ∧
    extract_artist_from_event (eventNamed "Radiohead") = "Radiohead" ∧
    extract_artist_from_event (eventNamed "A Live Tour") = "A" ∧
    (∀ e : RawEvent, e.attractions = [] →
      (∀ suf ∈ tourSuffixes, strContains (e.name.getD "") suf = false) →
      extract_artist_from_event e = pyStrip (e.name.getD "")) := by
  refine ⟨by decide, by decide, by decide, ?_⟩
  intro e hattr hno
  have h1 := hno " Tour" (by simp [tourSuffixes])
  have h2 := hno " Live" (by simp [tourSuffixes])
  have h3 := hno " Concert" (by simp [tourSuffixes])
  have h4 := hno " Show" (by simp [tourSuffixes])
  have h5 := hno " Presents" (by simp [tourSuffixes])
  have h6 := hno " World Tour" (by simp [tourSuffixes])
  cases e with
  | mk id nm attr ven dt pr pop =>
    simp only at hattr
    subst hattr
    simp only at h1 h2 h3 h4 h5 h6
    simp [extract_artist_from_event, tourSuffixes, List.foldl, h1, h2, h3, h4, h5, h6]

/-- C1 witness: the general no-suffix conjunct applied to the event named
"Radiohead". -/
theorem C1_witness :
    extract_artist_from_event (eventNamed "Radiohead") =
      pyStrip ((eventNamed "Radiohead").name.getD "") :=
  C1_amended_extraction.2.2.2 (eventNamed "Radiohead") rfl (by decide)

/-! ## C2: error propagation in get_similar_artists_lastfm -/

/-- C2 counterexample: with an API key configured, a network failure in
get_similar_artists_lastfm propagates as an exception to the caller (the
source has no try/except around requests.get), rather than yielding the
empty sequence. -/
theorem C2_counterexample :
    get_similar_artists_lastfm true "Radiohead" 3 SimNet.netFail =
      Except.error PyError.requestError := rfl

/-- C2 (amended): get_similar_artists_lastfm returns the empty sequence
when the API key is absent or when the HTTP call completes with a non-200
status, but an exception raised by the HTTP library and a JSON parse
failure of the response body both propagate to the caller. -/
theorem C2_amended_error_handling :
    (∀ (name : String) (limit : Nat) (net : SimNet),
        get_similar_artists_lastfm false name limit net = Except.ok []) ∧
    (∀ (name : String) (limit status : Nat) (body : Option (List (Option String))),
        status ≠ 200 →
        get_similar_artists_lastfm true name limit (SimNet.resp status body) =
          Except.ok []) ∧
    (∀ (name : String) (limit : Nat),
        get_similar_artists_lastfm true name limit SimNet.netFail =
          Except.error PyError.requestError) ∧
    (∀ (name : String) (limit : Nat),
        get_similar_artists_lastfm true name limit (SimNet.resp 200 Option.none) =
          Except.error PyError.jsonError) := by
  refine ⟨fun _ _ _ => rfl, ?_, fun _ _ => rfl, fun _ _ => rfl⟩
  intro name limit status body hs
  simp [get_similar_artists_lastfm, hs]

/-- C2 witness: a 500 response with an unparseable body still yields the
empty sequence. -/
theorem C2_witness :
    get_similar_artists_lastfm true "Radiohead" 3 (SimNet.resp 500 Option.none) =
      Except.ok [] :=
  C2_amended_error_handling.2.1 "Radiohead" 3 500 Option.none (by decide)

/-! ## C3: empty artist name in get_artist_popularity -/

/-- C3 counterexample: with an API key configured, get_artist_popularity
called on the empty artist name does issue the outbound HTTP request
(first component true) and returns whatever listener count the response
carries (here 5, not 0) — the empty-name guard is not in this function. -/
theorem C3_counterexample :
    get_artist_popularity true "" (PopNet.resp 200 (some (PyVal.vstr "5"))) =
      (true, Except.ok 5) := rfl

/-- C3 (amended): the empty-name guard lives in the ranking step of the
orchestrator, not in get_artist_popularity: for an event whose extracted
artist name is empty, the ranking step assigns popularity 0 and issues no
request, whatever the key configuration and the network would answer; and
get_artist_popularity itself returns 0 without a request only when the
API key is absent. -/
theorem C3_amended_empty_guard :
    (∀ (key : Bool) (netOf : String → PopNet) (e : RawEvent),
        extract_artist_from_event e = "" →
        eventPopularity key netOf e = (false, Except.ok 0)) ∧
    (∀ (name : String) (net : PopNet),
        get_artist_popularity false name net = (false, Except.ok 0)) := by
  refine ⟨?_, fun _ _ => rfl⟩
  intro key netOf e h
  simp [eventPopularity, h]

/-- C3 witness: the ranking step on an event with the empty name makes no
request and yields 0, even with a key configured and a failing network. -/
theorem C3_witness :
    eventPopularity true constNetFail (eventNamed "") = (false, Except.ok 0) :=
  C3_amended_empty_guard.1 true constNetFail (eventNamed "") (by decide)

/-! ## C4: the limit bound of get_similar_artists_lastfm -/

/-- C4 counterexample: limit is only a request parameter; a response
carrying two artist entries against limit 1 makes the function return two
names — there is no client-side truncation. -/
theorem C4_counterexample :
    get_similar_artists_lastfm true "Radiohead" 1
        (SimNet.resp 200 (some [some "Alpha", some "Beta"])) =
      Except.ok ["Alpha", "Beta"] ∧
    ¬((["Alpha", "Beta"] : List String).length ≤ 1) :=
  ⟨rfl, by decide⟩

theorem collectNames_length :
    ∀ (entries : List (Option String)) (l : List String),
      collectNames entries = Except.ok l → l.length = entries.length := by
  intro entries
  induction entries with
  | nil =>
    intro l h
    simp [collectNames] at h
    simp [h]
  | cons a rest ih =>
    intro l h
    cases a with
    | none => simp [collectNames] at h
    | some n =>
      cases hr : collectNames rest with
      | error e => simp [collectNames, hr, Except.map] at h
      | ok l' =>
        simp [collectNames, hr, Except.map] at h
        subst h
        simp [ih l' hr]

/-- C4 (amended): the names returned on success are exactly the entries
of the response artist array, so the result length is bounded by limit
exactly when the response honors the limit parameter: for any response
with at most limit entries, a successful result has length at most
limit. -/
theorem C4_amended_limit :
    ∀ (key : Bool) (name : String) (limit : Nat) (net : SimNet) (l : List String),
      simNetEntryCount net ≤ limit →
      get_similar_artists_lastfm key name limit net = Except.ok l →
      l.length ≤ limit := by
  intro key name limit net l hcount hok
  cases key with
  | false =>
    simp [get_similar_artists_lastfm] at hok
    subst hok
    simp
  | true =>
    cases net with
    | netFail => simp [get_similar_artists_lastfm] at hok
    | resp status body =>
      by_cases hs : status = 200
      · subst hs
        cases body with
        | none => simp [get_similar_artists_lastfm] at hok
        | some entries =>
          simp [get_similar_artists_lastfm] at hok
          rw [collectNames_length entries l hok]
          simpa [simNetEntryCount] using hcount
      · simp [get_similar_artists_lastfm, hs] at hok
        subst hok
        simp

/-- C4 witness: a response honoring limit 2 with one entry yields a
result of length at most 2. -/
theorem C4_witness :
    simNetEntryCount (SimNet.resp 200 (some [some "Alpha"])) ≤ 2 ∧
    get_similar_artists_lastfm true "Radiohead" 2
        (SimNet.resp 200 (some [some "Alpha"])) = Except.ok ["Alpha"] ∧
    (["Alpha"] : List String).length ≤ 2 :=
  ⟨by decide, rfl,
    C4_amended_limit true "Radiohead" 2 (SimNet.resp 200 (some [some "Alpha"]))
      ["Alpha"] (by decide) rfl⟩

/-! ## C5: deduplication by event identifier -/

/-- First occurrence of id "A": at a venue of capacity 20000. -/
def evDupCap : RawEvent :=
  { id := some "A", name := some "first", attractions := [],
    venues := [venueCap 20000], dateTime := Option.none,
    priceRanges := [], popularity := Option.none }

/-- Later occurrence of id "A" from another term, with no capacity data. -/
def evDupNoCap : RawEvent :=
  { id := some "A", name := some "second", attractions := [], venues := [],
    dateTime := Option.none, priceRanges := [], popularity := Option.none }

/-- Two search terms whose results repeat the identifier "A". -/
def dupResponses : List (String × Option (List RawEvent)) :=
  [("term1", some [evDupCap]), ("term2", some [evDupNoCap])]

/-- C5 counterexample: with the large-venue filter on, the first
occurrence encountered in term order of id "A" (evDupCap, name "first")
is dropped by the filter without being recorded, and the result keeps the
data of the later occurrence (name "second") instead of the first
occurrence's data. -/
theorem C5_counterexample :
    search_ticketmaster_events true dupResponses true = [evDupNoCap] ∧
    (gatherStream dupResponses).find? (fun x => decide (x.id = some "A")) =
      some evDupCap ∧
    evDupCap.name ≠ evDupNoCap.name :=
  ⟨by decide, by decide, by decide⟩

/-- C5 (amended): the returned list contains each event identifier at
most once, and for each identifier it keeps the data of the first
occurrence, in term order, among the events that pass the large-venue
filter (when the filter is off or never fires this is the first
occurrence encountered). -/
theorem C5_amended_dedup :
    ∀ (key : Bool) (rs : List (String × Option (List RawEvent))) (excl : Bool),
      ((search_ticketmaster_events key rs excl).map RawEvent.id).Nodup ∧
      ∀ e, e ∈ search_ticketmaster_events key rs excl →
        (admittedStream rs excl).find? (fun x => decide (x.id = e.id)) = some e := by
  intro key rs excl
  cases key with
  | false => simp [search_ticketmaster_events]
  | true =>
    have hcore : search_ticketmaster_events true rs excl =
        sortByDate (dedupFirst (admittedStream rs excl) []) := by
      simp [search_ticketmaster_events, searchLoop_eq_dedup, admittedStream]
    rw [hcore]
    constructor
    · have hperm : List.Perm (sortByDate (dedupFirst (admittedStream rs excl) []))
          (dedupFirst (admittedStream rs excl) []) := pySort_perm _ _
      exact (hperm.map RawEvent.id).nodup_iff.mpr (dedupFirst_ids_nodup _ _)
    · intro e he
      have he' : e ∈ dedupFirst (admittedStream rs excl) [] :=
        mem_pySort.mp (by simpa [sortByDate] using he)
      exact (dedupFirst_spec _ _ e he').2

/-- C5 witness: the amended statement at the duplicate-id scenario. -/
theorem C5_witness :
    ((search_ticketmaster_events true dupResponses true).map RawEvent.id).Nodup ∧
    (admittedStream dupResponses true).find?
        (fun x => decide (x.id = evDupNoCap.id)) = some evDupNoCap :=
  ⟨(C5_amended_dedup true dupResponses true).1,
    (C5_amended_dedup true dupResponses true).2 evDupNoCap (by decide)⟩

/-! ## C6: the large-venue capacity filter -/

theorem resolveCapacity_truthy {v : Venue} {c : PyVal}
    (h : resolveCapacity v = some c) : pyTruthy (some c) = true := by
  simp only [resolveCapacity] at h
  by_cases h1 : pyTruthy v.generalInfoCapacity
  · simp [h1] at h
    rw [h] at h1
    exact h1
  · simp only [if_neg h1] at h
    have hnone : pyTruthy Option.none = false := rfl
    rw [hnone] at h
    simp only [Bool.not_false, Bool.true_and] at h
    by_cases h2 : pyTruthy v.boxOfficeInfoCapacity
    · rw [if_pos h2] at h
      rw [h] at h2
      exact h2
    · rw [if_neg h2] at h
      exact absurd h (by simp)

theorem resolveEventCapacity_truthy {e : RawEvent} {c : PyVal}
    (h : resolveEventCapacity e = some c) : pyTruthy (some c) = true := by
  unfold resolveEventCapacity at h
  cases hv : e.venues with
  | nil => rw [hv] at h; simp at h
  | cons v vs => rw [hv] at h; exact resolveCapacity_truthy h

/-- C6: with exclude_large_venues on, an event whose resolved first-venue
capacity parses to an integer strictly above the 10000 threshold (such as
10001) never appears in the result of search_ticketmaster_events; and an
event for which no capacity value can be resolved passes the large-venue
filter. -/
theorem C6_capacity_filter :
    (∀ (key : Bool) (rs : List (String × Option (List RawEvent)))
        (e : RawEvent) (c : PyVal) (n : Int),
        resolveEventCapacity e = some c → pyIntOfVal c = some n →
        n > VENUE_SIZE_THRESHOLD →
        e ∉ search_ticketmaster_events key rs true) ∧
    (∀ e : RawEvent, resolveEventCapacity e = Option.none →
        keepEvent true e = true) := by
  constructor
  · intro key rs e c n hcap hint hgt hmem
    have hkeep : keepEvent true e = false := by
      have ht := resolveEventCapacity_truthy hcap
      simp [keepEvent, eventDropped, hcap, ht, hint, hgt]
    cases key with
    | false => simp [search_ticketmaster_events] at hmem
    | true =>
      have h1 : e ∈ sortByDate (searchLoop true (gatherStream rs) []) := by
        simpa [search_ticketmaster_events] using hmem
      have h2 : e ∈ searchLoop true (gatherStream rs) [] :=
        mem_pySort.mp (by simpa [sortByDate] using h1)
      rw [searchLoop_eq_dedup] at h2
      have h3 := mem_of_mem_dedupFirst h2
      have h4 := (List.mem_filter.mp h3).2
      simp [hkeep] at h4
  · intro e h
    simp [keepEvent, eventDropped, h, pyTruthy]

/-- The event of the C6 witness: first venue capacity 10001. -/
def eventCap10001 : RawEvent :=
  { id := some "B", name := Option.none, attractions := [],
    venues := [venueCap 10001], dateTime := Option.none,
    priceRanges := [], popularity := Option.none }

/-- An event whose only venue declares no capacity anywhere. -/
def eventNoCapacity : RawEvent :=
  { id := some "K", name := Option.none, attractions := [],
    venues := [venueNoCap], dateTime := Option.none,
    priceRanges := [], popularity := Option.none }

/-- C6 witness: capacity 10001 is excluded from a concrete search, and
the no-capacity event passes the filter. -/
theorem C6_witness :
    eventCap10001 ∉ search_ticketmaster_events true
        [("term", some [eventCap10001])] true ∧
    keepEvent true eventNoCapacity = true :=
  ⟨C6_capacity_filter.1 true [("term", some [eventCap10001])] eventCap10001
      (PyVal.vint 10001) 10001 (by decide) (by decide) (by decide),
    C6_capacity_filter.2 eventNoCapacity (by decide)⟩

/-! ## C7: price formatting in format_event -/

/-- An event with a single price-range entry. -/
def eventPriced (m M : Int) : RawEvent :=
  { id := Option.none, name := Option.none, attractions := [], venues := [],
    dateTime := Option.none, priceRanges := [{ min := some m, max := some M }],
    popularity := Option.none }

/-- C7: with at least one price-range entry, the price string is
"$MIN - $MAX" when min and max are both non-zero, "From $MIN" when only
min is non-zero, and the empty string otherwise. -/
theorem C7_price_formatting :
    ∀ (e : RawEvent) (pr : PriceRange) (rest : List PriceRange),
      e.priceRanges = pr :: rest →
      format_event_price e =
        (if pr.min.getD 0 ≠ 0 ∧ pr.max.getD 0 ≠ 0 then
          "$" ++ toString (pr.min.getD 0) ++ " - $" ++ toString (pr.max.getD 0)
        else if pr.min.getD 0 ≠ 0 ∧ pr.max.getD 0 = 0 then
          "From $" ++ toString (pr.min.getD 0)
        else "") := by
  intro e pr rest h
  cases e with
  | mk i nm a v d prs p =>
    simp only at h
    subst h
    by_cases hm : pr.min.getD 0 = 0 <;> by_cases hM : pr.max.getD 0 = 0 <;>
      simp [format_event_price, hm, hM]

/-- C7 witness: the three concrete price examples. -/
theorem C7_witness :
    format_event_price (eventPriced 20 20) = "$20 - $20" ∧
    format_event_price (eventPriced 20 0) = "From $20" ∧
    format_event_price (eventPriced 0 0) = "" :=
  ⟨by rw [C7_price_formatting (eventPriced 20 20) ⟨some 20, some 20⟩ [] rfl]; decide,
    by rw [C7_price_formatting (eventPriced 20 0) ⟨some 20, some 0⟩ [] rfl]; decide,
    by rw [C7_price_formatting (eventPriced 0 0) ⟨some 0, some 0⟩ [] rfl]; decide⟩

/-! ## C8: descending, stable popularity sort -/

/-- C8: the ranking step sorts descending by the annotated popularity
score, and stably: for every popularity value, the events carrying it
appear in the output in exactly their pre-sort (annotated) order, stated
as equality of the filtered sublists. -/
theorem C8_rank_sort :
    ∀ (popOf : RawEvent → Int) (events : List RawEvent),
      List.Pairwise (fun a b => popKey b ≤ popKey a)
        (rankByPopularity popOf events) ∧
      ∀ c : Int,
        (rankByPopularity popOf events).filter (fun e => decide (popKey e = c)) =
          (annotateByPopularity popOf events).filter
            (fun e => decide (popKey e = c)) := by
  intro popOf events
  exact ⟨sortDescBy_pairwise popKey _, fun c => sortDescBy_filter popKey c _⟩

/-! ## C9: only the first venue is inspected -/

/-- C9: the large-venue filter resolves capacity only from the first
venue: an event whose first venue yields no capacity value passes the
filter, whatever the remaining venues (in particular ones declaring a
capacity above 10000) say. -/
theorem C9_first_venue_only :
    ∀ (e : RawEvent) (v : Venue) (vs : List Venue),
      e.venues = v :: vs → resolveCapacity v = Option.none →
      keepEvent true e = true := by
  intro e v vs hv hc
  simp [keepEvent, eventDropped, resolveEventCapacity, hv, hc, pyTruthy]

/-- An event whose first venue has no capacity and whose second venue
declares capacity 20000. -/
def eventSecondVenueLarge : RawEvent :=
  { id := some "C", name := Option.none, attractions := [],
    venues := [venueNoCap, venueCap 20000], dateTime := Option.none,
    priceRanges := [], popularity := Option.none }

/-- C9 witness: the second venue's 20000 capacity does not drop the event. -/
theorem C9_witness : keepEvent true eventSecondVenueLarge = true :=
  C9_first_venue_only eventSecondVenueLarge venueNoCap [venueCap 20000]
    rfl (by decide)

/-! ## C10: an identifier is recorded only when the event is appended -/

/-- C10: an event dropped by the large-venue filter does not record its
identifier: a later occurrence of the same identifier (here from another
term) that passes the filter is still admitted to the result, provided no
earlier admitted event claimed that identifier. -/
theorem C10_seen_only_on_append :
    ∀ (t1 t2 : String) (pre : List RawEvent) (e1 e2 : RawEvent),
      pyStrip t1 ≠ "" → pyStrip t2 ≠ "" →
      e1.id = e2.id →
      keepEvent true e1 = false → keepEvent true e2 = true →
      (∀ x ∈ pre, keepEvent true x = true → x.id ≠ e2.id) →
      e2 ∈ search_ticketmaster_events true
        [(t1, some (pre ++ [e1])), (t2, some [e2])] true := by
  intro t1 t2 pre e1 e2 ht1 ht2 hid hk1 hk2 hpre
  have hstream : gatherStream [(t1, some (pre ++ [e1])), (t2, some [e2])] =
      (pre ++ [e1]) ++ [e2] := by
    simp [gatherStream, ht1, ht2]
  have hfil : ((pre ++ [e1]) ++ [e2]).filter (keepEvent true) =
      pre.filter (keepEvent true) ++ [e2] := by
    simp [List.filter_append, List.filter_cons, hk1, hk2]
  have hmem : e2 ∈ dedupFirst
      (((pre ++ [e1]) ++ [e2]).filter (keepEvent true)) [] := by
    rw [hfil]
    apply mem_dedupFirst_append_last
    · intro x hx
      exact hpre x (List.mem_filter.mp hx).1 (List.mem_filter.mp hx).2
    · simp
  have hloop : e2 ∈ searchLoop true
      (gatherStream [(t1, some (pre ++ [e1])), (t2, some [e2])]) [] := by
    rw [hstream, searchLoop_eq_dedup]
    exact hmem
  simp only [search_ticketmaster_events, if_true, sortByDate]
  exact mem_pySort.mpr hloop

/-- The C10 witness events: a large-venue event with id "D", then a
capacity-free event with the same id from a later term. -/
def evC10Dropped : RawEvent :=
  { id := some "D", name := some "big", attractions := [],
    venues := [venueCap 20000], dateTime := Option.none,
    priceRanges := [], popularity := Option.none }

def evC10Kept : RawEvent :=
  { id := some "D", name := some "later", attractions := [], venues := [],
    dateTime := Option.none, priceRanges := [], popularity := Option.none }

/-- C10 witness: the later same-id event is admitted to the result. -/
theorem C10_witness :
    evC10Kept ∈ search_ticketmaster_events true
      [("term1", some ([] ++ [evC10Dropped])), ("term2", some [evC10Kept])] true :=
  C10_seen_only_on_append "term1" "term2" [] evC10Dropped evC10Kept
    (by decide) (by decide) (by decide) (by decide) (by decide)
    (by intro x hx; simp at hx)

end ConcertFinder
